import Mathlib

/-!
Verification of the Schottky band-diagram solver implemented in `src/app.py`.

The script computes, from user parameters (temperature `T`, acceptor and donor
concentrations `Na`, `Nd`, metal workfunction `Wm`, electron affinity `Xs`),
the Fermi-level offset `F` of a p-type semiconductor with incomplete dopant
ionization, the derived scalars `Ws`, `Vbi`, `Sbh`, `w`, and the spatial band
profile (conduction, valence and vacuum levels) over a depletion grid and a
bulk grid.  Floating-point arithmetic is modelled by exact real arithmetic.
-/

namespace BandDiagram

noncomputable section

/-- Elementary charge, `q = 1.6e-19` (src/app.py line 31). -/
def q : ℝ := 1.6e-19

/-- Vacuum permittivity in F/cm, `e0 = 8.85e-14` (line 32). -/
def e0 : ℝ := 8.85e-14

/-- Relative permittivity, `e1 = 5.0` (line 33). -/
def e1 : ℝ := 5.0

/-- Boltzmann constant in eV/K, `k_eV = 8.617e-5` (line 34). -/
def k_eV : ℝ := 8.617e-5

/-- Boltzmann constant in J/K, `k_J = 1.3806e-23` (line 35). -/
def k_J : ℝ := 1.3806e-23

/-- Planck constant, `h = 6.626e-34` (line 36). -/
def h : ℝ := 6.626e-34

/-- Free-electron mass, `m_0 = 9.109e-31` (line 37). -/
def m_0 : ℝ := 9.109e-31

/-- Effective hole mass, `m = 0.81 * m_0` (line 38). -/
def m : ℝ := 0.81 * m_0

/-- Degeneracy factor, `g = 4.0` (line 39). -/
def g : ℝ := 4.0

/-- Bandgap, `Eg = 1.12` (line 40). -/
def Eg : ℝ := 1.12

/-- Base ionization energy, `Ea0 = 0.045` (line 41). -/
def Ea0 : ℝ := 0.045

/-- User-supplied device parameters (the slider values of src/app.py
lines 18-26, with the concentrations already converted to linear scale). -/
structure Params where
  T : ℝ
  Na : ℝ
  Nd : ℝ
  Wm : ℝ
  Xs : ℝ

/-- Scalar outputs of `calculate_physics` (the physics-result part of the
returned tuple, src/app.py line 84). -/
structure Scalars where
  F : ℝ
  Ws : ℝ
  Vbi : ℝ
  Sbh : ℝ
  w : ℝ

/-- Doping-dependent ionization energy, `Ea = Ea0 - 5.5e-8 * Na**(1/3)`
(src/app.py line 45). -/
def Ea (p : Params) : ℝ := Ea0 - 5.5e-8 * p.Na ^ ((1 : ℝ) / 3)

/-- Effective density of valence states,
`Nv = (2 * ((2*pi*m*T*k_J)/h**2)**1.5) / 1e6` (src/app.py line 50). -/
def Nv (p : Params) : ℝ :=
  2 * ((2 * Real.pi * m * p.T * k_J) / h ^ 2) ^ (1.5 : ℝ) / 1e6

/-- First Fermi-level term, `term1 = k_eV * T * log(Nv / (Na - Nd))`
(src/app.py line 58). -/
def term1 (p : Params) : ℝ := k_eV * p.T * Real.log (Nv p / (p.Na - p.Nd))

/-- Exponential ionization term,
`exp_term = (g * exp(Ea/(k_eV*T)) * Nd) / Nv` (src/app.py line 61). -/
def exp_term (p : Params) : ℝ :=
  g * Real.exp (Ea p / (k_eV * p.T)) * p.Nd / Nv p

/-- Argument of the square root,
`1 + (4*g*exp(Ea/(k_eV*T))*Na)/Nv + exp_term*(exp_term - 2)`
(src/app.py lines 62-63). -/
def term_inside_sqrt (p : Params) : ℝ :=
  1 + 4 * g * Real.exp (Ea p / (k_eV * p.T)) * p.Na / Nv p +
    exp_term p * (exp_term p - 2)

/-- Inner factor `term2_inner = 0.5 * (sqrt(term_inside_sqrt) + 1 + exp_term)`
(src/app.py line 65). -/
def term2_inner (p : Params) : ℝ :=
  0.5 * (Real.sqrt (term_inside_sqrt p) + 1 + exp_term p)

/-- Second Fermi-level term, `term2 = k_eV * T * log(term2_inner)`
(src/app.py line 66). -/
def term2 (p : Params) : ℝ := k_eV * p.T * Real.log (term2_inner p)

/-- Fermi-level offset, `F = term1 + term2` (src/app.py line 68). -/
def F (p : Params) : ℝ := term1 p + term2 p

/-- Semiconductor workfunction, `Ws = Xs + F` (src/app.py line 71). -/
def Ws (p : Params) : ℝ := p.Xs + F p

/-- Built-in voltage, `Vbi = Ws - Wm` (src/app.py line 74). -/
def Vbi (p : Params) : ℝ := Ws p - p.Wm

/-- Schottky barrier height, `Sbh = F + Vbi` (src/app.py line 77). -/
def Sbh (p : Params) : ℝ := F p + Vbi p

/-- Depletion width in nm,
`w = sqrt((2 * abs(Vbi) * e0 * e1) / (q * Na)) * 1e7` (src/app.py line 82). -/
def w (p : Params) : ℝ :=
  Real.sqrt ((2 * |Vbi p| * e0 * e1) / (q * p.Na)) * 1e7

/-- The full scalar stage of `calculate_physics` (src/app.py lines 29-84):
a straight-line computation with no validation branch and no error channel. -/
def calculate_physics (p : Params) : Scalars :=
  ⟨F p, Ws p, Vbi p, Sbh p, w p⟩

/-- `numpy.linspace a b n`: `n` evenly spaced samples from `a` to `b`,
both endpoints included. -/
def linspace (a b : ℝ) (n : ℕ) : List ℝ :=
  (List.range n).map (fun (i : ℕ) => a + (b - a) * (i : ℝ) / ((n : ℝ) - 1))

/-- Depletion-zone grid,
`x_sc_dep = linspace(0, w, 200) if w > 0 else array([0])`
(src/app.py line 92). -/
def x_sc_dep (s : Scalars) : List ℝ :=
  if 0 < s.w then linspace 0 s.w 200 else [0]

/-- Bulk-zone grid, `x_sc_bulk = linspace(w, w + 20, 100)`
(src/app.py line 93). -/
def x_sc_bulk (s : Scalars) : List ℝ := linspace s.w (s.w + 20) 100

/-- Concatenated semiconductor grid, `x_full_sc = concatenate([x_sc_dep,
x_sc_bulk])` (src/app.py line 149); this is the `Position_nm` column of the
exported table (line 195). -/
def x_full_sc (s : Scalars) : List ℝ := x_sc_dep s ++ x_sc_bulk s

/-- Space-charge potential `V_z(z, w, Vbi)` (src/app.py lines 98-103):
`potential = (q*Na/(2*e0*e1)) * (z-w)**2 * 1e-14`, returned by both branches
of the `if Vbi < 0` conditional exactly as in the source. -/
def V_z (p : Params) (z w0 Vbi0 : ℝ) : ℝ :=
  let potential := (q * p.Na / (2 * e0 * e1)) * (z - w0) ^ 2 * 1e-14
  if Vbi0 < 0 then potential else potential

/-- Conduction band over the depletion zone (src/app.py lines 112-115):
`-v_pot + F` when `Vbi >= 0`, `v_pot + F` otherwise. -/
def Ec_dep_f (p : Params) (s : Scalars) (z : ℝ) : ℝ :=
  if 0 ≤ s.Vbi then -(V_z p z s.w s.Vbi) + s.F else V_z p z s.w s.Vbi + s.F

/-- Valence band over the depletion zone (src/app.py lines 120-123). -/
def Ev_dep_f (p : Params) (s : Scalars) (z : ℝ) : ℝ :=
  if 0 ≤ s.Vbi then -(V_z p z s.w s.Vbi) + s.F - Eg
  else V_z p z s.w s.Vbi + s.F - Eg

/-- Vacuum level over the depletion zone (src/app.py lines 128-131). -/
def Evac_dep_f (p : Params) (s : Scalars) (z : ℝ) : ℝ :=
  if 0 ≤ s.Vbi then -(V_z p z s.w s.Vbi) + s.F + p.Xs
  else V_z p z s.w s.Vbi + s.F + p.Xs

/-- Exported conduction-band column `y_Ec = concatenate([Ec_dep, Ec_bulk])`
(src/app.py lines 109-115 and 150): depletion samples followed by the flat
bulk value `F`. -/
def y_Ec (p : Params) (s : Scalars) : List ℝ :=
  (x_sc_dep s).map (Ec_dep_f p s) ++ (x_sc_bulk s).map (fun _ => s.F)

/-- Exported valence-band column `y_Ev` (src/app.py lines 119-123 and 154). -/
def y_Ev (p : Params) (s : Scalars) : List ℝ :=
  (x_sc_dep s).map (Ev_dep_f p s) ++ (x_sc_bulk s).map (fun _ => s.F - Eg)

/-- Exported vacuum-level column `y_Evac` (src/app.py lines 127-131
and 158). -/
def y_Evac (p : Params) (s : Scalars) : List ℝ :=
  (x_sc_dep s).map (Evac_dep_f p s) ++ (x_sc_bulk s).map (fun _ => s.F + p.Xs)

/-- Fixed material coefficient `c` of the spec formula `Ea = Ea0 - c*Na^(1/3)`
(spec section 4.3); its value in the source is `5.5e-8`. -/
def c : ℝ := 5.5e-8

/-- Ionization energy written as the spec states it: `Ea = Ea0 - c*Na^(1/3)`. -/
def Ea_spec (p : Params) : ℝ := Ea0 - c * p.Na ^ ((1 : ℝ) / 3)

/-- Quantity `A = g*exp(Ea/kT)*Nd/Nv` of the spec's closed-form
incomplete-ionization equation (spec section 4.3). -/
def A_spec (p : Params) : ℝ :=
  g * Real.exp (Ea_spec p / (k_eV * p.T)) * p.Nd / Nv p

/-- Quantity `B = 4*g*exp(Ea/kT)*Na/Nv` of the spec's closed-form
incomplete-ionization equation (spec section 4.3). -/
def B_spec (p : Params) : ℝ :=
  4 * g * Real.exp (Ea_spec p / (k_eV * p.T)) * p.Na / Nv p

/-- Fermi-level offset exactly as the spec states it:
`F = kT*ln(Nv/(Na-Nd)) + kT*ln(1/2*(sqrt(1 + B + A*(A-2)) + 1 + A))`
(spec section 4.3). -/
def F_spec (p : Params) : ℝ :=
  k_eV * p.T * Real.log (Nv p / (p.Na - p.Nd)) +
    k_eV * p.T *
      Real.log ((1 / 2) *
        (Real.sqrt (1 + B_spec p + A_spec p * (A_spec p - 2)) + 1 + A_spec p))

/-- Modelled from the spec: the repository has no homojunction solver under
src/ (src/app.py implements only the Schottky variant), so the homojunction
scalar stage is taken from spec section 4.1: thermal voltage 0.0259 eV at the
300 K reference and intrinsic concentration `ni = 1.5e10` (the scenario in
spec section 8), `Vbi = kT*ln(Na*Nd/ni^2)`. -/
def hj_Vbi (Na Nd : ℝ) : ℝ := 0.0259 * Real.log (Na * Nd / (1.5e10 : ℝ) ^ 2)

/-- Modelled from the spec: homojunction material permittivity `ε` (spec
section 4.1 leaves the material fixed; silicon `ε = 11.7*e0` is used; the
charge-balance invariant does not depend on this value). -/
def eps_hj : ℝ := 11.7 * e0

/-- Modelled from the spec: homojunction total depletion width
`W = sqrt((2*ε*Vbi/q) * (Na+Nd)/(Na*Nd))`, nm-converted (spec section 4.1). -/
def hj_W (Na Nd : ℝ) : ℝ :=
  Real.sqrt ((2 * eps_hj * hj_Vbi Na Nd / q) * ((Na + Nd) / (Na * Nd))) * 1e7

/-- Modelled from the spec: n-side partial width `xn = W * Na/(Na+Nd)`
(spec section 4.1). -/
def hj_xn (Na Nd : ℝ) : ℝ := hj_W Na Nd * Na / (Na + Nd)

/-- Modelled from the spec: p-side partial width `xp = W * Nd/(Na+Nd)`
(spec section 4.1). -/
def hj_xp (Na Nd : ℝ) : ℝ := hj_W Na Nd * Nd / (Na + Nd)

/-- The default slider configuration of src/app.py
(`T=300, Na=1e16, Nd=1e12, Wm=4.5, Xs=4.05`), used as a concrete input. -/
def p0 : Params := ⟨300, 1e16, 1e12, 4.5, 4.05⟩

/-- A slider-reachable input violating the p-type precondition:
`Na = 10^14 < Nd = 10^18`. -/
def pBad : Params := ⟨300, 1e14, 1e18, 4.5, 4.05⟩

/-- A concrete scalar bundle with positive built-in voltage and depletion
width, used to instantiate the profile stage. -/
def s1 : Scalars := ⟨2, 6.05, 1, 3, 1⟩

/-! ## Helper lemmas -/

theorem length_linspace (a b : ℝ) (n : ℕ) : (linspace a b n).length = n := by
  simp only [linspace, List.length_map, List.length_range]

theorem get_linspace (a b : ℝ) (n i : ℕ) (hi : i < (linspace a b n).length) :
    (linspace a b n).get ⟨i, hi⟩ = a + (b - a) * (i : ℝ) / ((n : ℝ) - 1) := by
  simp only [linspace, List.get_eq_getElem, List.getElem_map, List.getElem_range]

theorem chain_le_linspace (a b : ℝ) (n : ℕ) (hab : a ≤ b) :
    (linspace a b n).Chain' (· ≤ ·) := by
  rw [List.chain'_iff_get]
  intro i hi
  rw [get_linspace, get_linspace]
  have hn : 2 ≤ n := by
    rw [length_linspace] at hi
    omega
  have hd : (0 : ℝ) < (n : ℝ) - 1 := by
    have : (2 : ℝ) ≤ (n : ℝ) := by exact_mod_cast hn
    linarith
  have hnum : (b - a) * (i : ℝ) ≤ (b - a) * ((i : ℝ) + 1) := by nlinarith
  have hdiv : (b - a) * (i : ℝ) * ((n : ℝ) - 1)⁻¹ ≤
      (b - a) * ((i : ℝ) + 1) * ((n : ℝ) - 1)⁻¹ :=
    mul_le_mul_of_nonneg_right hnum (inv_nonneg.mpr (le_of_lt hd))
  rw [div_eq_mul_inv, div_eq_mul_inv]
  push_cast
  linarith

theorem head_linspace (a b : ℝ) (n : ℕ) (hn : 0 < n) :
    (linspace a b n).head? = some a := by
  rw [List.head?_eq_getElem?]
  simp only [linspace, List.getElem?_map, List.getElem?_range hn]
  norm_num

theorem getLast_linspace (a b : ℝ) (n : ℕ) (hn : 2 ≤ n) :
    (linspace a b n).getLast? = some b := by
  rw [List.getLast?_eq_getElem?]
  rw [length_linspace]
  have h1 : n - 1 < n := by omega
  simp only [linspace, List.getElem?_map, List.getElem?_range h1]
  have hcast : ((n - 1 : ℕ) : ℝ) = (n : ℝ) - 1 := by
    have h2 : 1 ≤ n := by omega
    push_cast [h2]
    ring
  have hne : (n : ℝ) - 1 ≠ 0 := by
    have h3 : (2 : ℝ) ≤ (n : ℝ) := by exact_mod_cast hn
    intro hc
    linarith
  simp only [Option.map_some']
  rw [hcast]
  congr 1
  field_simp

theorem get_map_append_left {α β : Type} (l₁ l₂ : List α) (f fb : α → β)
    (i : ℕ) (hi : i < l₁.length) (hh : i < (l₁.map f ++ l₂.map fb).length) :
    (l₁.map f ++ l₂.map fb).get ⟨i, hh⟩ = f (l₁.get ⟨i, hi⟩) := by
  rw [List.get_eq_getElem, List.get_eq_getElem]
  rw [List.getElem_append_left (by simpa using hi)]
  simp only [List.getElem_map]

theorem get_map_append_right {α β : Type} (l₁ l₂ : List α) (f fb : α → β)
    (i : ℕ) (hi : l₁.length ≤ i) (h2 : i - l₁.length < l₂.length)
    (hh : i < (l₁.map f ++ l₂.map fb).length) :
    (l₁.map f ++ l₂.map fb).get ⟨i, hh⟩ =
      fb (l₂.get ⟨i - l₁.length, h2⟩) := by
  rw [List.get_eq_getElem, List.get_eq_getElem]
  rw [List.getElem_append_right (by simpa using hi)]
  simp only [List.length_map, List.getElem_map]

theorem dep_parallel (p : Params) (s : Scalars) (z : ℝ) :
    Ec_dep_f p s z - Ev_dep_f p s z = Eg ∧
    Evac_dep_f p s z - Ec_dep_f p s z = p.Xs := by
  unfold Ec_dep_f Ev_dep_f Evac_dep_f
  split_ifs <;> constructor <;> ring

theorem Nv_pos (p : Params) (hT : 0 < p.T) : 0 < Nv p := by
  unfold Nv m m_0 k_J h
  have hpi := Real.pi_pos
  positivity

theorem term_inside_sqrt_eq (p : Params) :
    term_inside_sqrt p =
      (1 - exp_term p) ^ 2 +
        4 * g * Real.exp (Ea p / (k_eV * p.T)) * p.Na / Nv p := by
  unfold term_inside_sqrt
  ring

theorem term_inside_sqrt_nonneg (p : Params) (hT : 0 < p.T) (hNa : 0 ≤ p.Na) :
    0 ≤ term_inside_sqrt p := by
  rw [term_inside_sqrt_eq]
  have hNv := Nv_pos p hT
  have hexp := Real.exp_pos (Ea p / (k_eV * p.T))
  have hB : 0 ≤ 4 * g * Real.exp (Ea p / (k_eV * p.T)) * p.Na / Nv p := by
    apply div_nonneg _ (le_of_lt hNv)
    have hg : (0 : ℝ) ≤ g := by norm_num [g]
    positivity
  nlinarith [sq_nonneg (1 - exp_term p)]

/-! ## Claim theorems -/

/-- C1: the spec requires that an input with `Na ≤ Nd` fail with an
`InvalidDopingRegime` condition before `F` is evaluated and produce no
`ScalarResult`.  The source has no such check: `calculate_physics` is a
straight-line computation that, even at the slider-reachable input
`pBad` (where `Na - Nd < 0` makes the logarithm argument of `term1`
undefined), still evaluates `F` and returns a full scalar bundle. -/
theorem C1_no_rejection :
    pBad.Na - pBad.Nd < 0 ∧
      calculate_physics pBad = ⟨F pBad, Ws pBad, Vbi pBad, Sbh pBad, w pBad⟩ :=
  ⟨by norm_num [pBad], rfl⟩

/-- C2: for `Na > Nd > 0` the Fermi-level offset computed by the solver
equals the spec's closed-form incomplete-ionization formula
`F = kT*ln(Nv/(Na-Nd)) + kT*ln(1/2*(sqrt(1+B+A*(A-2)) + 1 + A))` with
`A = g*exp(Ea/kT)*Nd/Nv`, `B = 4*g*exp(Ea/kT)*Na/Nv` and
`Ea = Ea0 - c*Na^(1/3)`. -/
theorem C2_fermi_formula (p : Params) (_hNd : 0 < p.Nd) (_hNa : p.Nd < p.Na) :
    (calculate_physics p).F = F_spec p := by
  have hEa : Ea p = Ea_spec p := by
    simp only [Ea, Ea_spec, c]
  show F p = F_spec p
  unfold F term1 term2 term2_inner term_inside_sqrt exp_term F_spec A_spec B_spec
  rw [hEa]
  norm_num

/-- C2 witness at the default sliders `T=300, Na=1e16, Nd=1e12`. -/
theorem C2_fermi_formula_witness : (calculate_physics p0).F = F_spec p0 :=
  C2_fermi_formula p0 (by norm_num [p0]) (by norm_num [p0])

/-- C3: the derived scalars satisfy `Ws = Xs + F`, `Vbi = Ws - Wm`,
`Sbh = F + Vbi`, and `w = sqrt(2*|Vbi|*ε/(q*Na)) * 1e7` (cm → nm), hence
`w` is non-negative. -/
theorem C3_derived_scalars (p : Params) (_hNd : 0 < p.Nd) (_hNa : p.Nd < p.Na) :
    (calculate_physics p).Ws = p.Xs + (calculate_physics p).F ∧
    (calculate_physics p).Vbi = (calculate_physics p).Ws - p.Wm ∧
    (calculate_physics p).Sbh =
      (calculate_physics p).F + (calculate_physics p).Vbi ∧
    (calculate_physics p).w =
      Real.sqrt (2 * |(calculate_physics p).Vbi| * (e0 * e1) / (q * p.Na)) *
        1e7 ∧
    0 ≤ (calculate_physics p).w := by
  refine ⟨rfl, rfl, rfl, ?_, ?_⟩
  · show w p = Real.sqrt (2 * |Vbi p| * (e0 * e1) / (q * p.Na)) * 1e7
    unfold w
    congr 2
    ring
  · show 0 ≤ w p
    unfold w
    positivity

/-- C3 witness at the default sliders. -/
theorem C3_derived_scalars_witness :
    (calculate_physics p0).Ws = p0.Xs + (calculate_physics p0).F :=
  (C3_derived_scalars p0 (by norm_num [p0]) (by norm_num [p0])).1

/-- C6: in the depletion zone the potential is the quadratic
`V(z) = (q*Na/(2ε))*(z-w)^2 * 1e-14`, and the curvature branch follows the
sign of `Vbi`: each band equals its bulk value minus `V(z)` when
`Vbi ≥ 0` and plus `V(z)` when `Vbi < 0`. -/
theorem C6_curvature_branch (p : Params) (s : Scalars) (z : ℝ) :
    V_z p z s.w s.Vbi = q * p.Na / (2 * (e0 * e1)) * (z - s.w) ^ 2 * 1e-14 ∧
    (0 ≤ s.Vbi →
      Ec_dep_f p s z = s.F - V_z p z s.w s.Vbi ∧
      Ev_dep_f p s z = (s.F - Eg) - V_z p z s.w s.Vbi ∧
      Evac_dep_f p s z = (s.F + p.Xs) - V_z p z s.w s.Vbi) ∧
    (s.Vbi < 0 →
      Ec_dep_f p s z = s.F + V_z p z s.w s.Vbi ∧
      Ev_dep_f p s z = (s.F - Eg) + V_z p z s.w s.Vbi ∧
      Evac_dep_f p s z = (s.F + p.Xs) + V_z p z s.w s.Vbi) := by
  refine ⟨?_, fun hv => ?_, fun hv => ?_⟩
  · unfold V_z
    split_ifs <;> ring
  · unfold Ec_dep_f Ev_dep_f Evac_dep_f
    split_ifs
    exact ⟨by ring, by ring, by ring⟩
  · unfold Ec_dep_f Ev_dep_f Evac_dep_f
    have hcond : ¬ (0 ≤ s.Vbi) := not_le.mpr hv
    split_ifs
    exact ⟨by ring, by ring, by ring⟩

/-- C6 witness: depletion-zone conduction band at `z = 0` for a scalar
bundle with `Vbi = 1 ≥ 0`. -/
theorem C6_curvature_branch_witness :
    Ec_dep_f p0 s1 0 = s1.F - V_z p0 0 s1.w s1.Vbi :=
  ((C6_curvature_branch p0 s1 0).2.1 (by norm_num [s1])).1

/-- C8: the solver is a pure function of the five inputs: two invocations
with identical `T, Na, Nd, Wm, Xs` produce identical scalars and identical
band-profile columns. -/
theorem C8_deterministic (p1 p2 : Params) (hT : p1.T = p2.T)
    (hNa : p1.Na = p2.Na) (hNd : p1.Nd = p2.Nd) (hWm : p1.Wm = p2.Wm)
    (hXs : p1.Xs = p2.Xs) :
    calculate_physics p1 = calculate_physics p2 ∧
    x_full_sc (calculate_physics p1) = x_full_sc (calculate_physics p2) ∧
    y_Ec p1 (calculate_physics p1) = y_Ec p2 (calculate_physics p2) ∧
    y_Ev p1 (calculate_physics p1) = y_Ev p2 (calculate_physics p2) ∧
    y_Evac p1 (calculate_physics p1) = y_Evac p2 (calculate_physics p2) := by
  have hp : p1 = p2 := by
    cases p1
    cases p2
    simp_all
  rw [hp]
  exact ⟨rfl, rfl, rfl, rfl, rfl⟩

/-- C8 witness at the default sliders. -/
theorem C8_deterministic_witness :
    calculate_physics p0 = calculate_physics p0 :=
  (C8_deterministic p0 p0 rfl rfl rfl rfl rfl).1

/-- C9: the homojunction partial widths (modelled from the spec, the
repository shipping no homojunction solver) satisfy the charge-balance
invariant `Na * xp = Nd * xn` exactly. -/
theorem C9_charge_balance (Na Nd : ℝ) (_hNa : 0 < Na) (_hNd : 0 < Nd) :
    Na * hj_xp Na Nd = Nd * hj_xn Na Nd := by
  unfold hj_xp hj_xn
  ring

/-- C9 witness at the spec's scenario doping `Na = 1e17`, `Nd = 1e16`. -/
theorem C9_charge_balance_witness :
    (1e17 : ℝ) * hj_xp 1e17 1e16 = 1e16 * hj_xn 1e17 1e16 :=
  C9_charge_balance 1e17 1e16 (by norm_num) (by norm_num)

/-- C10: `V_z` returns `(q*Na/(2*e0*e1))*(z-w)^2*1e-14` regardless of the
sign of its `Vbi` argument — its two conditional branches are identical, so
the curvature decision lives only in the band-array assembly. -/
theorem C10_V_z_branch_free (p : Params) (z w0 v1 v2 : ℝ) :
    V_z p z w0 v1 = V_z p z w0 v2 ∧
    V_z p z w0 v1 = q * p.Na / (2 * e0 * e1) * (z - w0) ^ 2 * 1e-14 := by
  constructor
  · by_cases h1 : v1 < 0 <;> by_cases h2 : v2 < 0 <;> simp [V_z, h1, h2]
  · by_cases h1 : v1 < 0 <;> simp [V_z, h1]

/-- C5: band parallelism.  At every sample index of the exported profile the
conduction, valence and vacuum columns satisfy `Ec - Ev = Eg` and
`Evac - Ec = Xs`, in the depletion zone and in the bulk zone alike. -/
theorem C5_band_parallelism (p : Params) (s : Scalars) (i : ℕ)
    (h1 : i < (y_Ec p s).length) (h2 : i < (y_Ev p s).length)
    (h3 : i < (y_Evac p s).length) :
    (y_Ec p s).get ⟨i, h1⟩ - (y_Ev p s).get ⟨i, h2⟩ = Eg ∧
    (y_Evac p s).get ⟨i, h3⟩ - (y_Ec p s).get ⟨i, h1⟩ = p.Xs := by
  by_cases hi : i < (x_sc_dep s).length
  · have e1 : (y_Ec p s).get ⟨i, h1⟩ = Ec_dep_f p s ((x_sc_dep s).get ⟨i, hi⟩) :=
      get_map_append_left (x_sc_dep s) (x_sc_bulk s) _ _ i hi h1
    have e2 : (y_Ev p s).get ⟨i, h2⟩ = Ev_dep_f p s ((x_sc_dep s).get ⟨i, hi⟩) :=
      get_map_append_left (x_sc_dep s) (x_sc_bulk s) _ _ i hi h2
    have e3 : (y_Evac p s).get ⟨i, h3⟩ =
        Evac_dep_f p s ((x_sc_dep s).get ⟨i, hi⟩) :=
      get_map_append_left (x_sc_dep s) (x_sc_bulk s) _ _ i hi h3
    rw [e1, e2, e3]
    exact dep_parallel p s _
  · push_neg at hi
    have hlen : i - (x_sc_dep s).length < (x_sc_bulk s).length := by
      have hh := h1
      unfold y_Ec at hh
      rw [List.length_append, List.length_map, List.length_map] at hh
      omega
    have e1 : (y_Ec p s).get ⟨i, h1⟩ = s.F :=
      get_map_append_right (x_sc_dep s) (x_sc_bulk s) _ _ i hi hlen h1
    have e2 : (y_Ev p s).get ⟨i, h2⟩ = s.F - Eg :=
      get_map_append_right (x_sc_dep s) (x_sc_bulk s) _ _ i hi hlen h2
    have e3 : (y_Evac p s).get ⟨i, h3⟩ = s.F + p.Xs :=
      get_map_append_right (x_sc_dep s) (x_sc_bulk s) _ _ i hi hlen h3
    rw [e1, e2, e3]
    constructor <;> ring

theorem y_Ec_len_pos : 0 < (y_Ec p0 s1).length := by
  have hw : (0 : ℝ) < s1.w := by norm_num [s1]
  unfold y_Ec x_sc_dep
  rw [if_pos hw]
  rw [List.length_append, List.length_map, List.length_map, length_linspace]
  omega

theorem y_Ev_len_pos : 0 < (y_Ev p0 s1).length := by
  have hw : (0 : ℝ) < s1.w := by norm_num [s1]
  unfold y_Ev x_sc_dep
  rw [if_pos hw]
  rw [List.length_append, List.length_map, List.length_map, length_linspace]
  omega

theorem y_Evac_len_pos : 0 < (y_Evac p0 s1).length := by
  have hw : (0 : ℝ) < s1.w := by norm_num [s1]
  unfold y_Evac x_sc_dep
  rw [if_pos hw]
  rw [List.length_append, List.length_map, List.length_map, length_linspace]
  omega

/-- C5 witness: the parallelism relations at sample index 0 of a concrete
profile. -/
theorem C5_band_parallelism_witness :
    (y_Ec p0 s1).get ⟨0, y_Ec_len_pos⟩ - (y_Ev p0 s1).get ⟨0, y_Ev_len_pos⟩ =
      Eg ∧
    (y_Evac p0 s1).get ⟨0, y_Evac_len_pos⟩ -
      (y_Ec p0 s1).get ⟨0, y_Ec_len_pos⟩ = p0.Xs :=
  C5_band_parallelism p0 s1 0 y_Ec_len_pos y_Ev_len_pos y_Evac_len_pos

set_option maxRecDepth 4000 in
/-- C7 counterexample: the exported positions are not strictly increasing.
The depletion grid `linspace(0, w, 200)` ends at `w` and the bulk grid
`linspace(w, w+20, 100)` starts at `w`, so the concatenation repeats the
boundary position: at the concrete scalar bundle `s1` (with `w = 1`),
samples 199 and 200 are both equal to 1. -/
theorem C7_counterexample : ¬ (x_full_sc s1).Chain' (· < ·) := by
  have hw : (0 : ℝ) < s1.w := by norm_num [s1]
  have hfull : x_full_sc s1 = linspace 0 1 200 ++ linspace 1 21 100 := by
    unfold x_full_sc x_sc_dep x_sc_bulk
    rw [if_pos hw]
    norm_num [s1]
  intro hch
  rw [hfull, List.chain'_iff_get] at hch
  have hlen : (linspace 0 1 200 ++ linspace 1 21 100).length = 300 := by
    rw [List.length_append, length_linspace, length_linspace]
  have h199 : 199 < (linspace 0 1 200 ++ linspace 1 21 100).length - 1 := by
    rw [hlen]
    norm_num
  have hb1 : 199 < (linspace 0 1 200 ++ linspace 1 21 100).length := by
    rw [hlen]
    norm_num
  have hb2 : 200 < (linspace 0 1 200 ++ linspace 1 21 100).length := by
    rw [hlen]
    norm_num
  have g1 : getElem (linspace 0 1 200 ++ linspace 1 21 100) 199 hb1 = 1 := by
    rw [List.getElem_append_left (by simp [length_linspace])]
    simp only [linspace, List.getElem_map, List.getElem_range]
    norm_num
  have g2 : getElem (linspace 0 1 200 ++ linspace 1 21 100) 200 hb2 = 1 := by
    rw [List.getElem_append_right (by simp [length_linspace])]
    simp only [length_linspace]
    simp only [linspace, List.getElem_map, List.getElem_range]
    norm_num
  have hlt := hch 199 h199
  simp only [List.get_eq_getElem] at hlt
  norm_num at hlt
  rw [g1, g2] at hlt
  exact lt_irrefl _ hlt

/-- C7 amended: the exported positions are non-decreasing (weakly, not
strictly: the zone-boundary position `w` occurs twice, once as the last
depletion sample and once as the first bulk sample), start at 0, and end at
`w + 20` — the full rendered semiconductor domain with no gaps. -/
theorem C7_positions_sorted_cover (s : Scalars) (hw : 0 < s.w) :
    (x_full_sc s).Chain' (· ≤ ·) ∧ (x_full_sc s).head? = some 0 ∧
    (x_full_sc s).getLast? = some (s.w + 20) := by
  have hfull : x_full_sc s = linspace 0 s.w 200 ++ linspace s.w (s.w + 20) 100 := by
    unfold x_full_sc x_sc_dep x_sc_bulk
    rw [if_pos hw]
  rw [hfull]
  refine ⟨?_, ?_, ?_⟩
  · rw [List.chain'_append]
    refine ⟨chain_le_linspace _ _ _ (le_of_lt hw),
      chain_le_linspace _ _ _ (by linarith), ?_⟩
    intro x hx y hy
    rw [getLast_linspace _ _ _ (by norm_num)] at hx
    rw [head_linspace _ _ _ (by norm_num)] at hy
    rw [Option.mem_some_iff] at hx hy
    rw [← hx, ← hy]
  · rw [List.head?_append, head_linspace _ _ _ (by norm_num)]
    rfl
  · rw [List.getLast?_append, getLast_linspace _ _ _ (by norm_num)]
    rfl

/-- C7 amended witness at the concrete scalar bundle `s1`. -/
theorem C7_positions_sorted_cover_witness :
    (x_full_sc s1).Chain' (· ≤ ·) ∧ (x_full_sc s1).head? = some 0 ∧
    (x_full_sc s1).getLast? = some (s1.w + 20) :=
  C7_positions_sorted_cover s1 (by norm_num [s1])

end

end BandDiagram
